import Mathlib

/-!
Verification development for the lead intake and lifecycle management
subsystem (Netlify functions `leads-create`, `leads-list`, `leads-update`
and their shared `_utils`).  JavaScript strings are modelled as lists of
characters; JSON scalar values as an inductive `JVal`; absent / `null` /
`undefined` values as `Option`; times in milliseconds as `Int` (the
ISO-string round trip `Date.parse(new Date(ms).toISOString()) = ms` is
taken as an identity); ISO timestamp strings appearing inside records and
keys are carried as strings.  All definitions are executable.
-/

namespace AshleeLeads

/-- JavaScript strings, modelled as lists of UTF-16-unit characters. -/
abbrev Str := List Char

/-- JSON scalar values that can appear in request payload fields.
`null` and `undefined` are represented by `Option.none` at use sites. -/
inductive JVal where
  | str (s : Str)
  | num (n : Int)
  | boolean (b : Bool)
deriving DecidableEq

/-- Decimal rendering of a natural number, as JavaScript `String(n)`. -/
def natToStr (n : Nat) : Str := Nat.toDigits 10 n

/-- JavaScript `String(v)` on an integer. -/
def intToStr (n : Int) : Str :=
  if n < 0 then '-' :: natToStr n.natAbs else natToStr n.natAbs

/-- JavaScript `String(v)` on a JSON scalar. -/
def jsToString (v : JVal) : Str :=
  match v with
  | .str s => s
  | .num n => intToStr n
  | .boolean b => if b then ['t','r','u','e'] else ['f','a','l','s','e']

/-- JavaScript truthiness `Boolean(v)` on a JSON scalar. -/
def jsTruthy (v : JVal) : Bool :=
  match v with
  | .str s => s ≠ []
  | .num n => n ≠ 0
  | .boolean b => b

/-- JavaScript `String.prototype.trim` (ASCII whitespace suffices for the
inputs of this subsystem). -/
def jsTrim (s : Str) : Str :=
  ((s.dropWhile Char.isWhitespace).reverse.dropWhile Char.isWhitespace).reverse

/-- JavaScript `a || b` on strings (a string is falsy exactly when empty). -/
def jsOr (a b : Str) : Str := if a = [] then b else a

/-- `sanitizeString` from `_utils.js`, on a string already in hand:
trim, then truncate to `maxLen` characters. -/
def sanitizeStr (s : Str) (maxLen : Nat) : Str :=
  (jsTrim s).take maxLen

/-- `sanitizeString(v, maxLen)` from `_utils.js` on a nullable JSON value:
`null`/`undefined` become the empty string, anything else is stringified,
trimmed and truncated to `maxLen`. -/
def sanitizeString (v : Option JVal) (maxLen : Nat) : Str :=
  match v with
  | none => []
  | some v => sanitizeStr (jsToString v) maxLen

/-- `normalizeInstagram` from `_utils.js`: sanitize to 60 chars, strip one
leading `@`, re-prefix `@` if non-empty. -/
def normalizeInstagram (v : Str) : Str :=
  let raw := match sanitizeStr v 60 with
    | '@' :: rest => rest
    | s => s
  if raw = [] then [] else '@' :: raw

/-- The test `/^\+\d{10,15}$/` from `normalizePhone`. -/
def plusE164Ok (d : Str) : Bool :=
  match d with
  | '+' :: rest =>
      rest.all Char.isDigit && decide (10 ≤ rest.length) && decide (rest.length ≤ 15)
  | _ => false

/-- `normalizePhone` from `_utils.js`: `+`-prefixed input must reduce to
`+` followed by 10 to 15 digits; otherwise the input is domestic — 10
digits get a `+1` country prefix, 11 digits starting with `1` get `+`,
anything else is rejected (empty string). -/
def normalizePhone (raw : Str) : Str :=
  let s := sanitizeStr raw 50
  if s = [] then []
  else if s.head? = some '+' then
    let digits := s.filter (fun c => c.isDigit || c = '+')
    if plusE164Ok digits then digits else []
  else
    let digits := s.filter Char.isDigit
    if digits.length = 10 then '+' :: '1' :: digits
    else if digits.length = 11 ∧ digits.head? = some '1' then '+' :: digits
    else []

/-- A digit character is not whitespace. -/
theorem not_whitespace_of_isDigit {c : Char} (h : c.isDigit = true) :
    c.isWhitespace = false := by
  cases hw : c.isWhitespace
  · rfl
  · exfalso
    unfold Char.isWhitespace at hw
    simp only [Bool.or_eq_true, decide_eq_true_eq] at hw
    rcases hw with ((h1 | h1) | h1) | h1 <;>
      (subst h1; exact absurd h (by decide))

/-- `dropWhile` fixes a list none of whose elements satisfies the
predicate. -/
theorem dropWhile_eq_self_of_forall {p : Char → Bool} {s : Str}
    (h : ∀ c ∈ s, p c = false) : s.dropWhile p = s := by
  cases s with
  | nil => rfl
  | cons c rest =>
    rw [List.dropWhile_cons]
    simp [h c (List.mem_cons_self c rest)]

/-- Trimming fixes a string with no whitespace characters. -/
theorem jsTrim_eq_self_of_forall {s : Str}
    (h : ∀ c ∈ s, c.isWhitespace = false) : jsTrim s = s := by
  unfold jsTrim
  rw [dropWhile_eq_self_of_forall h, dropWhile_eq_self_of_forall, List.reverse_reverse]
  intro c hc
  exact h c (List.mem_reverse.mp hc)

theorem sanitizeStr_eq_self {s : Str}
    (hw : ∀ c ∈ s, c.isWhitespace = false) (hl : s.length ≤ 50) :
    sanitizeStr s 50 = s := by
  unfold sanitizeStr
  rw [jsTrim_eq_self_of_forall hw, List.take_of_length_le hl]

/-- Lowercasing, as JavaScript `toLowerCase` on the ASCII data of this
subsystem. -/
def toLowerStr (s : Str) : Str := s.map Char.toLower

/-- The raw create-lead submission body.  Each field is a JSON string or
absent; absent/`undefined`/`null` and the empty string are identified,
which is faithful because both are falsy and `sanitizeString` sends all
of them to the empty string. -/
structure Body where
  name : Str
  full_name : Str
  phone : Str
  mobile : Str
  phone_number : Str
  instagram : Str
  ig : Str
  service : Str
  requested_service : Str
  availability : Str
  timeframe : Str
  notes : Str
  message : Str
  details : Str
  contact_preference : Str
  budget : Str
  length : Str
  style : Str
  hp : Str
deriving DecidableEq

/-- The canonical nested lead payload produced by `validatePayload`. -/
structure Lead where
  name : Str
  phone : Str
  instagram : Str
  service : Str
  availability : Str
  notes : Str
  contact_preference : Str
  budget : Str
  length : Str
  style : Str
deriving DecidableEq

/-- `validatePayload` from `leads-create.js`. -/
def validatePayload (body : Body) : Except Str Lead :=
  let name := sanitizeStr (jsOr body.name body.full_name) 80
  let phone := normalizePhone (jsOr (jsOr body.phone body.mobile) body.phone_number)
  let instagram := normalizeInstagram (jsOr body.instagram body.ig)
  if name = [] then .error ("Missing name").toList
  else if phone = [] ∧ instagram = [] then .error ("Provide phone or instagram").toList
  else .ok {
    name := name
    phone := phone
    instagram := instagram
    service := sanitizeStr (jsOr body.service body.requested_service) 100
    availability := sanitizeStr (jsOr body.availability body.timeframe) 160
    notes := sanitizeStr (jsOr (jsOr body.notes body.message) body.details) 1000
    contact_preference := sanitizeStr body.contact_preference 40
    budget := sanitizeStr body.budget 40
    length := sanitizeStr body.length 40
    style := sanitizeStr body.style 80 }

/-- An apostrophe character (codepoint 39). -/
def apos : Char := Char.ofNat 39

/-- `BOOKING_SCRIPT` from `leads-create.js`. -/
def BOOKING_SCRIPT : Str :=
  ("To schedule, call Paul Mitchell Logan Guest Services at (435) 752-3599 or use their ").toList
    ++ [apos] ++ ("Book a Service").toList ++ [apos]
    ++ (" option online, and request Ashlee Christensen by name.").toList

/-- `fallbackDm` from `leads-create.js`: deterministic template built from
the sanitized lead name (or "there") and the fixed booking script. -/
def fallbackDm (name : Str) : Str :=
  let first := jsOr (sanitizeStr name 40) ("there").toList
  ("Hi ").toList ++ first
    ++ (" — thanks for reaching out. What style/length are you wanting, and what days/times work best? ").toList
    ++ ['\n', '\n'] ++ BOOKING_SCRIPT

/-- The pure tail of `generateSuggestedDm`: the service output text is
trimmed and hard-capped at 550 characters. -/
def generatedDmText (output_text : Str) : Str :=
  let text := jsTrim output_text
  if 550 < text.length then text.take 550 else text

/-- The suggested-DM resolution in the `leads-create` handler: a failed
service call (`gen = none`, covering missing credentials, network errors
and thrown exceptions) or an empty generated text falls back to
`fallbackDm`. -/
def suggestedDm (gen : Option Str) (name : Str) : Str :=
  match gen with
  | none => fallbackDm name
  | some t =>
      let d := generatedDmText t
      if d = [] then fallbackDm name else d

/-- The persisted rate window record (`window_start_at`, `count`,
`last_submit_at`); ISO timestamps are carried as their millisecond
values, using the `Date.parse`/`toISOString` round trip. -/
structure RateRec where
  window_start_at : Int
  count : Int
  last_submit_at : Int
deriving DecidableEq

/-- `WINDOW_MS` from `leads-create.js`: 10 minutes. -/
def WINDOW_MS : Int := 10 * 60 * 1000

/-- `MAX_REQ` from `leads-create.js`. -/
def MAX_REQ : Int := 3

/-- Outcome of the rate-limit section of the `leads-create` handler. -/
inductive RateOutcome where
  | reject
  | admitted (next : RateRec)
deriving DecidableEq

/-- The rate-limit logic of `leads-create.js` (lines 162-192) for one
stored window record and the current time:  a missing record or an
elapsed window resets the logical count to zero; a full, unexpired
window rejects; otherwise the window record is advanced. -/
def rateCheck (prev : Option RateRec) (nowMs : Int) : RateOutcome :=
  let windowStartMs : Int := match prev with
    | some r => r.window_start_at
    | none => 0
  let prevCount : Int := match prev with
    | some r => r.count
    | none => 0
  let inWindow : Bool := decide (windowStartMs ≠ 0) && decide (nowMs - windowStartMs < WINDOW_MS)
  let count : Int := if inWindow then prevCount else 0
  if inWindow && decide (count ≥ MAX_REQ) then .reject
  else .admitted {
    window_start_at := if inWindow then windowStartMs else nowMs
    count := if inWindow then count + 1 else 1
    last_submit_at := nowMs }

/-- A stored lead record (see `leads-create.js` lines 196-215).  The
`meta` and `booking` sub-objects are flattened into prefixed fields;
`contacted_at`/`closed_at` are absent (`none`) until first stamped.
ISO timestamps inside the record are carried as strings. -/
structure LeadRecord where
  id : Str
  created_at : Str
  updated_at : Str
  status : Str
  archived : Bool
  lead : Lead
  suggested_dm : Str
  internal_notes : Str
  tags : List Str
  contacted_at : Option Str
  closed_at : Option Str
  meta_referrer : Str
  meta_user_agent : Str
  meta_ip : Str
  booking_constraint : Str
  booking_location : Str
deriving DecidableEq

/-- `store.get(key)` over an association-list model of the blob store. -/
def getAssoc {A : Type} (l : List (Str × A)) (k : Str) : Option A :=
  match l with
  | [] => none
  | (k0, v0) :: rest => if k0 = k then some v0 else getAssoc rest k

/-- `store.setJSON(key, v)` over the association-list model: upsert. -/
def setAssoc {A : Type} (l : List (Str × A)) (k : Str) (v : A) : List (Str × A) :=
  match l with
  | [] => [(k, v)]
  | (k0, v0) :: rest => if k0 = k then (k, v) :: rest else (k0, v0) :: setAssoc rest k v

/-- The durable blob store.  Rate records live under `rate/` keys and
lead records under `leads/` keys; the two key namespaces are disjoint,
so they are modelled as two association lists. -/
structure StoreState where
  rates : List (Str × RateRec)
  leads : List (Str × LeadRecord)
deriving DecidableEq

/-- `rateKeyForIp` from `_utils.js`: sanitize to 80 chars and replace
every character outside `[a-zA-Z0-9._-]` with `_`, under a `rate/`
prefix; empty when the source address is empty. -/
def rateKeyForIp (ip : Str) : Str :=
  let s := sanitizeStr ip 80
  if s = [] then []
  else ("rate/").toList ++
    s.map (fun c => if c.isAlphanum || c = '.' || c = '_' || c = '-' then c else '_')

/-- `newLeadKey` from `_utils.js`: `leads/<ISO timestamp>_<uuid>`.  The
ISO timestamp string and the random UUID are taken as parameters. -/
def newLeadKey (isoTimestamp : Str) (uuid : Str) : Str :=
  ("leads/").toList ++ isoTimestamp ++ ['_'] ++ uuid

/-- Response of the `leads-create` handler (status plus the JSON body
fields this subsystem promises). -/
structure CreateResp where
  status : Nat
  ok : Bool
  error : Str
  idOut : Str
  suggested_dm : Str
deriving DecidableEq

/-- The fresh stored lead record built by the `leads-create` handler
(lines 196-215 plus the later `suggested_dm` assignment). -/
def newLeadRecord (lead : Lead) (ip referrer userAgent nowIso : Str)
    (key : Str) (dm : Str) : LeadRecord :=
  { id := key
    created_at := nowIso
    updated_at := nowIso
    status := ("new").toList
    archived := false
    lead := lead
    suggested_dm := dm
    internal_notes := []
    tags := []
    contacted_at := none
    closed_at := none
    meta_referrer := referrer
    meta_user_agent := userAgent
    meta_ip := ip
    booking_constraint := ("Paul Mitchell clinic only").toList
    booking_location := ("Logan, UT").toList }

/-- The `leads-create` handler (default export of `leads-create.js`).
Modelling notes: the OPTIONS/method guards and the two 10 KB payload
size guards concern transport encoding and are outside the embedded
state space; `gen` is the outcome of the external generation-service
call (`none` = the call threw); `nowMs`/`nowIso` are the two renderings
of the single `now = new Date()`; storage reads/writes are assumed to
succeed (the rate branch is best-effort in the source only on storage
failure). -/
def createLead (st : StoreState) (body : Body) (ip referrer userAgent : Str)
    (nowMs : Int) (nowIso : Str) (gen : Option Str) (uuid : Str) :
    CreateResp × StoreState :=
  if sanitizeStr body.hp 200 ≠ [] then
    ({ status := 400, ok := false, error := ("Spam detected").toList,
       idOut := [], suggested_dm := [] }, st)
  else
    match validatePayload body with
    | .error e =>
        ({ status := 400, ok := false, error := e, idOut := [], suggested_dm := [] }, st)
    | .ok lead =>
        let proceed : StoreState → CreateResp × StoreState := fun st1 =>
          let key := newLeadKey nowIso uuid
          let dm := suggestedDm gen lead.name
          ({ status := 200, ok := true, error := [], idOut := key, suggested_dm := dm },
           { st1 with
             leads :=
               setAssoc st1.leads key (newLeadRecord lead ip referrer userAgent nowIso key dm) })
        let rk := rateKeyForIp ip
        if ip ≠ [] ∧ rk ≠ [] then
          match rateCheck (getAssoc st.rates rk) nowMs with
          | .reject =>
              ({ status := 429, ok := false, error := ("Too many requests").toList,
                 idOut := [], suggested_dm := [] }, st)
          | .admitted next => proceed { st with rates := setAssoc st.rates rk next }
        else proceed st

/-- `VALID_STATUSES` from `leads-update.js`. -/
def VALID_STATUSES : List Str :=
  [("new").toList, ("contacted").toList, ("booked").toList, ("closed").toList,
   ("noshow").toList]

/-- `normalizeStatus` from `leads-update.js`: sanitize to 30 chars, then
lowercase. -/
def normalizeStatus (raw : JVal) : Str :=
  toLowerStr (sanitizeString (some raw) 30)

/-- A patch object (`body.patch` in `leads-update.js`).  `none` models a
missing or `null` field (the source guards every field with
`!= null`); tag elements may themselves be `null`/`undefined`.
A non-array `tags` value (which the source coerces to `[]`) is modelled
as `some []`. -/
structure Patch where
  status : Option JVal
  internal_notes : Option JVal
  tags : Option (List (Option JVal))
  archived : Option JVal
deriving DecidableEq

/-- JavaScript falsiness of an optional ISO-timestamp string
(`undefined` or the empty string). -/
def optStrFalsy (v : Option Str) : Bool :=
  match v with
  | none => true
  | some s => s = []

/-- The status resolution at the top of `applyPatch`: a missing (or
`null`) `patch.status` keeps the existing status, a present one is
normalized and must be a member of the fixed status set. -/
def patchedStatus (existing : LeadRecord) (patch : Patch) : Except Str Str :=
  match patch.status with
  | none => .ok existing.status
  | some v =>
      let s := normalizeStatus v
      if s ∈ VALID_STATUSES then .ok s else .error ("Invalid status").toList

/-- The field updates of `applyPatch` other than the lifecycle stamps:
`out = { ...existing }` with the recognized patch fields applied and
`updated_at` refreshed. -/
def patchedFields (existing : LeadRecord) (patch : Patch) (s : Str)
    (nowIso : Str) : LeadRecord :=
  { existing with
    status := s
    internal_notes := match patch.internal_notes with
      | none => existing.internal_notes
      | some v => sanitizeString (some v) 2000
    tags := match patch.tags with
      | none => existing.tags
      | some l => (((l.map (fun t => sanitizeString t 40)).filter
          (fun t => t ≠ [])).take 25)
    archived := match patch.archived with
      | none => existing.archived
      | some v => jsTruthy v
    updated_at := nowIso }

/-- The optional lifecycle stamps at the end of `applyPatch` (lines
127-132 of `leads-update.js`): on a status change, `contacted_at` and
`closed_at` are stamped when the new status calls for it and the stamp
is still falsy. -/
def stampLifecycle (existing out : LeadRecord) (nowIso : Str) : LeadRecord :=
  if existing.status ≠ out.status then
    let o1 := if out.status = ("contacted").toList && optStrFalsy out.contacted_at
      then { out with contacted_at := some nowIso } else out
    if (o1.status = ("closed").toList || o1.status = ("booked").toList)
        && optStrFalsy o1.closed_at
      then { o1 with closed_at := some nowIso } else o1
  else out

/-- `applyPatch` from `leads-update.js`: resolve the status (throwing on
an invalid one), apply the recognized fields, then stamp the lifecycle
timestamps. -/
def applyPatch (existing : LeadRecord) (patch : Patch) (nowIso : Str) :
    Except Str LeadRecord :=
  match patchedStatus existing patch with
  | .error e => .error e
  | .ok s => .ok (stampLifecycle existing (patchedFields existing patch s nowIso) nowIso)

/-- The shape test of the 24-character ISO timestamp segment inside
`LEAD_KEY_RE` (`\d{4}-\d{2}-\d{2}T\d{2}:\d{2}:\d{2}\.\d{3}Z`). -/
def isoKeyTs (t : Str) : Bool :=
  decide (t.length = 24) &&
  (List.range 24).all (fun i =>
    match t.get? i with
    | none => false
    | some c =>
      if i = 4 || i = 7 then c = '-'
      else if i = 10 then c = 'T'
      else if i = 13 || i = 16 then c = ':'
      else if i = 19 then c = '.'
      else if i = 23 then c = 'Z'
      else c.isDigit)

/-- The `[0-9a-fA-F-]{36}` segment of `LEAD_KEY_RE`. -/
def hexDash36 (s : Str) : Bool :=
  decide (s.length = 36) &&
  s.all (fun c => c.isDigit || ('a' ≤ c && c ≤ 'f') || ('A' ≤ c && c ≤ 'F') || c = '-')

/-- `assertLeadKey` from `_utils.js`: the length guard plus the anchored
`LEAD_KEY_RE` pattern `leads/<24-char ISO>_<36-char hex/dash>`. -/
def assertLeadKey (key : Str) : Bool :=
  decide (key.length < 220) &&
  decide (key.length = 67) &&
  decide (key.take 6 = ("leads/").toList) &&
  isoKeyTs ((key.drop 6).take 24) &&
  decide ((key.drop 30).take 1 = ['_']) &&
  hexDash36 (key.drop 31)

/-- Request body of the `leads-update` handler.  `coercePatch` (which
substitutes `{}` when `body.patch` is not an object) is absorbed by
taking the patch directly: a missing patch is the all-`none` patch. -/
structure UpdateBody where
  id : Str
  patch : Patch
deriving DecidableEq

/-- Response of the `leads-update` handler. -/
structure UpdResp where
  status : Nat
  ok : Bool
  error : Str
  lead : Option LeadRecord
deriving DecidableEq

/-- The `leads-update` handler (default export of `leads-update.js`),
after the OPTIONS/method/auth/JSON-parse guards: id validation, status
pre-validation (before any store access), fetch, patch application and
write-back.  Returns the response and the resulting lead store. -/
def leadsUpdate (store : List (Str × LeadRecord)) (body : UpdateBody)
    (nowIso : Str) : UpdResp × List (Str × LeadRecord) :=
  if !(assertLeadKey body.id) then
    ({ status := 400, ok := false, error := ("Invalid lead id").toList, lead := none },
     store)
  else
    let preInvalid : Bool :=
      match body.patch.status with
      | none => false
      | some v => !(normalizeStatus v ∈ VALID_STATUSES)
    if preInvalid then
      ({ status := 400, ok := false, error := ("Invalid status").toList, lead := none },
       store)
    else
      match getAssoc store body.id with
      | none =>
          ({ status := 404, ok := false, error := ("Lead not found").toList,
             lead := none }, store)
      | some existing =>
          match applyPatch existing body.patch nowIso with
          | .error e =>
              ({ status := 400, ok := false, error := e, lead := none }, store)
          | .ok updated =>
              ({ status := 200, ok := true, error := [], lead := some updated },
               setAssoc store body.id updated)

/-- A JavaScript number restricted to the values arising from query
parameters in this subsystem: an integer, or NaN (`none`).  `Number(s)`
of a non-numeric string is NaN; fractional numerals are outside the
modelled parameter space. -/
abbrev JsNum := Option Int

/-- `Math.max(a, x)` with a constant integer first argument: NaN
propagates. -/
def jsMax (a : Int) (x : JsNum) : JsNum := x.map (fun v => max a v)

/-- `Math.min(a, x)` with a constant integer first argument: NaN
propagates. -/
def jsMin (a : Int) (x : JsNum) : JsNum := x.map (fun v => min a v)

/-- JavaScript `+` on two such numbers: NaN propagates. -/
def jsAdd (x y : JsNum) : JsNum :=
  match x, y with
  | some a, some b => some (a + b)
  | _, _ => none

/-- `ToIntegerOrInfinity` as used by `Array.prototype.slice` on the
arguments reachable here (NaN becomes 0; the reachable numeric
arguments are non-negative, so the negative-relative case is clamped
to 0 like slice does for a lower bound below 0). -/
def jsIdx (x : JsNum) : Nat :=
  match x with
  | none => 0
  | some v => v.toNat

/-- `filtered.slice(start, end)` for the non-negative-or-NaN arguments
reachable in the `leads-list` handler. -/
def jsSlice {A : Type} (l : List A) (s e : JsNum) : List A :=
  (l.take (jsIdx e)).drop (jsIdx s)

/-- The effective limit: `Math.min(200, Math.max(1, Number(limit || "50")))`.
`none` as the parameter means the query parameter was absent (or empty,
which `||` also sends to the default numeral). -/
def effLimit (p : Option JsNum) : JsNum :=
  jsMin 200 (jsMax 1 (p.getD (some 50)))

/-- The effective offset: `Math.max(0, Number(offset || "0"))`. -/
def effOffset (p : Option JsNum) : JsNum :=
  jsMax 0 (p.getD (some 0))

/-- Query parameters of the `leads-list` handler.  String parameters are
`[]` when absent; `limit`/`offset` are `none` when absent and otherwise
carry the `Number(...)` value of the supplied string. -/
structure ListQuery where
  status : Str
  q : Str
  archived : Str
  limit : Option JsNum
  offset : Option JsNum
deriving DecidableEq

/-- The effective archived mode: the trimmed, lowercased parameter, or
`"false"` when that is empty. -/
def archivedMode (p : Str) : Str :=
  let a := toLowerStr (jsTrim p)
  if a = [] then ("false").toList else a

/-- The archived filter of `leads-list.js` (lines 48-53). -/
def matchesArchived (mode : Str) (r : LeadRecord) : Bool :=
  if mode = ("all").toList then true
  else if mode = ("true").toList then r.archived
  else !r.archived

/-- The status filter of `leads-list.js` (line 54); `status` is already
trimmed and lowercased. -/
def matchesStatus (status : Str) (r : LeadRecord) : Bool :=
  if status = [] then true else toLowerStr r.status = status

/-- The free-text haystack of `leads-list.js` (lines 57-70): the listed
fields, empties dropped, joined by single spaces, lowercased. -/
def searchHay (r : LeadRecord) : Str :=
  toLowerStr (List.intercalate [' ']
    (([r.lead.name, r.lead.phone, r.lead.instagram, r.lead.service,
       r.lead.availability, r.lead.notes, r.status, r.internal_notes]
       ++ r.tags).filter (fun s => s ≠ [])))

/-- The free-text filter of `leads-list.js` (lines 55-72); `q` is already
trimmed and lowercased. -/
def matchesQ (q : Str) (r : LeadRecord) : Bool :=
  if q = [] then true else decide (q <:+: searchHay r)

/-- The filtered, newest-first match list of the `leads-list` handler
(pre-pagination): keys under `leads/` sorted in reverse lexical order
(the JS comparator `(a, b) => a > b ? -1 : 1`, which on distinct keys is
sorting by `≥`), hydrated (a missing record is dropped, matching
`.filter(Boolean)`), then the three filters in source order. -/
def listFiltered (store : List (Str × LeadRecord)) (q : ListQuery) :
    List LeadRecord :=
  let keys := List.insertionSort (fun a b : Str => b ≤ a) (store.map Prod.fst)
  let records := keys.filterMap (getAssoc store)
  ((records.filter (matchesArchived (archivedMode q.archived))).filter
      (matchesStatus (toLowerStr (jsTrim q.status)))).filter
    (matchesQ (toLowerStr (jsTrim q.q)))

/-- Response of the `leads-list` handler. -/
structure ListResp where
  status : Nat
  ok : Bool
  total : Nat
  offsetOut : JsNum
  limitOut : JsNum
  leads : List LeadRecord
deriving DecidableEq

/-- The `leads-list` handler (default export of `leads-list.js`), after
the OPTIONS/method/auth guards: filter, then paginate by
`slice(offset, offset + limit)`. -/
def leadsList (store : List (Str × LeadRecord)) (q : ListQuery) : ListResp :=
  let filtered := listFiltered store q
  let limit := effLimit q.limit
  let offset := effOffset q.offset
  { status := 200, ok := true, total := filtered.length,
    offsetOut := offset, limitOut := limit,
    leads := jsSlice filtered offset (jsAdd offset limit) }

/-- A verified identity user attached to the request context.  `roles`
models `app_metadata.roles || user_metadata.roles || []` already
coalesced. -/
structure IdentityUser where
  email : Str
  roles : List Str
deriving DecidableEq

/-- Result of `requireAdmin`. -/
inductive AdminCheck where
  | allowed (email : Str) (roles : List Str)
  | denied (status : Nat) (error : Str)
deriving DecidableEq

/-- Split a string at commas (JavaScript `split(",")`). -/
def splitComma (s : Str) : List Str :=
  match s with
  | [] => [[]]
  | c :: rest =>
      match splitComma rest with
      | [] => if c = ',' then [[], []] else [[c]]
      | h :: t => if c = ',' then [] :: h :: t else (c :: h) :: t

/-- `requireAdmin` from `_utils.js`: the verified user must exist, and
its email must be on the `ADMIN_EMAILS` allowlist or its roles must
contain `ADMIN_ROLE`; an empty allowlist allows no email and an empty
required role allows no role. -/
def requireAdmin (adminEmails adminRole : Str) (user : Option IdentityUser) :
    AdminCheck :=
  match user with
  | none => .denied 401 ("Unauthorized").toList
  | some u =>
      let email := toLowerStr u.email
      let allow := ((splitComma adminEmails).map
        (fun x => toLowerStr (jsTrim x))).filter (fun x => x ≠ [])
      let requiredRole := jsTrim adminRole
      let emailAllowed : Bool := decide (0 < allow.length) && decide (email ∈ allow)
      let roleAllowed : Bool := decide (requiredRole ≠ []) && decide (requiredRole ∈ u.roles)
      if !emailAllowed && !roleAllowed then .denied 403 ("Forbidden").toList
      else .allowed email u.roles

/-! ## Shared facts and sample values -/

/-- The admissibility of a submission under the rate limiter at the
current store state: the source address is unknown (fail open), the
rate key is empty, or the window check admits. -/
def rateAllows (st : StoreState) (ip : Str) (nowMs : Int) : Prop :=
  ip = [] ∨ rateKeyForIp ip = [] ∨
    rateCheck (getAssoc st.rates (rateKeyForIp ip)) nowMs ≠ .reject

theorem getAssoc_setAssoc_self {A : Type} (l : List (Str × A)) (k : Str) (v : A) :
    getAssoc (setAssoc l k v) k = some v := by
  induction l with
  | nil => simp [setAssoc, getAssoc]
  | cons p rest ih =>
      obtain ⟨k0, v0⟩ := p
      unfold setAssoc
      by_cases h : k0 = k
      · simp [h, getAssoc]
      · simp [h, getAssoc, ih]

/-- A sample canonical lead payload used by witnesses. -/
def wLead : Lead :=
  { name := ("Jess").toList, phone := ("+14355551234").toList, instagram := [],
    service := ("fill").toList, availability := [], notes := [],
    contact_preference := [], budget := [], length := [], style := [] }

/-- A sample stored key matching `LEAD_KEY_RE`, used by witnesses. -/
def wKey : Str :=
  ("leads/2024-01-02T03:04:05.678Z_00000000-0000-0000-0000-000000000000").toList

/-- A sample stored lead record used by witnesses. -/
def wRecord : LeadRecord :=
  { id := wKey, created_at := ("2024-01-02T03:04:05.678Z").toList,
    updated_at := ("2024-01-02T03:04:05.678Z").toList, status := ("new").toList,
    archived := false, lead := wLead, suggested_dm := ("Hi").toList,
    internal_notes := [], tags := [], contacted_at := none, closed_at := none,
    meta_referrer := [], meta_user_agent := [], meta_ip := [],
    booking_constraint := [], booking_location := [] }

/-- A sample patch timestamp used by witnesses. -/
def wIso : Str := ("2099-01-02T03:04:05.678Z").toList

/-- A one-record store used by witnesses and counterexamples. -/
def wStore1 : List (Str × LeadRecord) := [(wKey, wRecord)]

/-! ## C10: unconfigured admin allowlist and role -/

/-- Claim C10: with a verified identity present, if neither the admin
email allowlist nor the required admin role is configured, `requireAdmin`
rejects with a 403 forbidden failure, whatever the email and roles of
the identity are. -/
theorem requireAdmin_unconfigured_forbidden (adminEmails adminRole : Str)
    (u : IdentityUser) (he : adminEmails = []) (hr : adminRole = []) :
    requireAdmin adminEmails adminRole (some u) =
      .denied 403 (("Forbidden").toList) := by
  subst he hr
  rfl

/-- Witness for C10 at a concrete identity that would pass any
email/role test if one were configured. -/
theorem requireAdmin_unconfigured_forbidden_witness :
    ([] : Str) = [] ∧ ([] : Str) = [] ∧
    requireAdmin [] [] (some ⟨("admin@example.com").toList, [("admin").toList]⟩) =
      .denied 403 (("Forbidden").toList) :=
  ⟨rfl, rfl, requireAdmin_unconfigured_forbidden [] []
    ⟨("admin@example.com").toList, [("admin").toList]⟩ rfl rfl⟩

/-! ## C5: phone normalization -/

/-- Claim C5: a 10-digit domestic input is normalized to `+1` followed by
those digits, and an already-canonical `+`-prefixed number of 10 to 15
digits is returned unchanged, so normalization is idempotent on such
inputs. -/
theorem normalizePhone_domestic_and_idempotent :
    (∀ s : Str, s.length = 10 → (∀ c ∈ s, c.isDigit = true) →
      normalizePhone s = '+' :: '1' :: s) ∧
    (∀ d : Str, 10 ≤ d.length → d.length ≤ 15 → (∀ c ∈ d, c.isDigit = true) →
      normalizePhone ('+' :: d) = '+' :: d ∧
      normalizePhone (normalizePhone ('+' :: d)) = normalizePhone ('+' :: d)) := by
  constructor
  · intro s h10 hd
    have hs : sanitizeStr s 50 = s :=
      sanitizeStr_eq_self (fun c hc => not_whitespace_of_isDigit (hd c hc)) (by omega)
    have hne : s ≠ [] := by
      intro h
      rw [h] at h10
      exact absurd h10 (by decide)
    have hplus : s.head? ≠ some '+' := by
      cases s with
      | nil => simp
      | cons c rest =>
          intro hc
          simp only [List.head?_cons, Option.some.injEq] at hc
          have := hd c (List.mem_cons_self c rest)
          rw [hc] at this
          exact absurd this (by decide)
    have hfilter : s.filter Char.isDigit = s := List.filter_eq_self.mpr hd
    unfold normalizePhone
    simp only [hs, if_neg hne, if_neg hplus, hfilter, h10, if_pos rfl]
    simp
  · intro d h10 h15 hd
    have hw : ∀ c ∈ '+' :: d, c.isWhitespace = false := by
      intro c hc
      rcases List.mem_cons.mp hc with h | h
      · subst h; decide
      · exact not_whitespace_of_isDigit (hd c h)
    have hs : sanitizeStr ('+' :: d) 50 = '+' :: d :=
      sanitizeStr_eq_self hw (by simp; omega)
    have hfilter : ('+' :: d).filter (fun c => c.isDigit || c = '+') = '+' :: d := by
      apply List.filter_eq_self.mpr
      intro c hc
      rcases List.mem_cons.mp hc with h | h
      · subst h; decide
      · simp [hd c h]
    have hok : plusE164Ok ('+' :: d) = true := by
      unfold plusE164Ok
      simp only [List.all_eq_true, Bool.and_eq_true, decide_eq_true_eq]
      exact ⟨⟨hd, h10⟩, h15⟩
    have h1 : normalizePhone ('+' :: d) = '+' :: d := by
      unfold normalizePhone
      simp only [hs, List.head?_cons, if_pos rfl, hfilter, hok, if_neg (List.cons_ne_nil _ _)]
      simp
    exact ⟨h1, by rw [h1]; exact h1⟩

/-- Witness for C5 at the 10-digit input `4355551234` and the canonical
input `+14355551234`. -/
theorem normalizePhone_domestic_and_idempotent_witness :
    (("4355551234").toList.length = 10 ∧
      normalizePhone (("4355551234").toList) = '+' :: '1' :: ("4355551234").toList) ∧
    (10 ≤ (("14355551234").toList).length ∧ (("14355551234").toList).length ≤ 15 ∧
      normalizePhone ('+' :: ("14355551234").toList) = '+' :: ("14355551234").toList) := by
  refine ⟨⟨by decide, ?_⟩, by decide, by decide, ?_⟩
  · exact normalizePhone_domestic_and_idempotent.1 (("4355551234").toList)
      (by decide) (by decide)
  · exact (normalizePhone_domestic_and_idempotent.2 (("14355551234").toList)
      (by decide) (by decide) (by decide)).1

/-! ## C6: validation failures persist nothing -/

/-- Claim C6: a create-lead submission whose payload, after
normalization, lacks a name, or lacks both a phone and an instagram
handle, fails with a 400 validation error and leaves the store (lead
records and rate records alike) untouched. -/
theorem createLead_validation_400 (st : StoreState) (body : Body)
    (ip referrer userAgent : Str) (nowMs : Int) (nowIso : Str)
    (gen : Option Str) (uuid : Str)
    (hhp : sanitizeStr body.hp 200 = [])
    (h : sanitizeStr (jsOr body.name body.full_name) 80 = [] ∨
      (normalizePhone (jsOr (jsOr body.phone body.mobile) body.phone_number) = [] ∧
       normalizeInstagram (jsOr body.instagram body.ig) = [])) :
    (createLead st body ip referrer userAgent nowMs nowIso gen uuid).1.status = 400 ∧
    (createLead st body ip referrer userAgent nowMs nowIso gen uuid).1.ok = false ∧
    (createLead st body ip referrer userAgent nowMs nowIso gen uuid).2 = st := by
  have hv : ∃ e, validatePayload body = .error e := by
    unfold validatePayload
    by_cases hn : sanitizeStr (jsOr body.name body.full_name) 80 = []
    · exact ⟨("Missing name").toList, by simp [hn]⟩
    · rcases h with h | ⟨hp, hi⟩
      · exact absurd h hn
      · exact ⟨("Provide phone or instagram").toList, by simp [hn, hp, hi]⟩
  obtain ⟨e, hv⟩ := hv
  unfold createLead
  simp [hhp, hv]

/-- Witness for C6: a submission with a name but no contact channel. -/
theorem createLead_validation_400_witness :
    sanitizeStr
      ({ name := ("Jess").toList, full_name := [], phone := [], mobile := [],
         phone_number := [], instagram := [], ig := [], service := [],
         requested_service := [], availability := [], timeframe := [], notes := [],
         message := [], details := [], contact_preference := [], budget := [],
         length := [], style := [], hp := [] } : Body).hp 200 = [] ∧
    (createLead ⟨[], []⟩
      { name := ("Jess").toList, full_name := [], phone := [], mobile := [],
        phone_number := [], instagram := [], ig := [], service := [],
        requested_service := [], availability := [], timeframe := [], notes := [],
        message := [], details := [], contact_preference := [], budget := [],
        length := [], style := [], hp := [] }
      ("1.2.3.4").toList [] [] 1000 wIso none wKey).1.status = 400 ∧
    (createLead ⟨[], []⟩
      { name := ("Jess").toList, full_name := [], phone := [], mobile := [],
        phone_number := [], instagram := [], ig := [], service := [],
        requested_service := [], availability := [], timeframe := [], notes := [],
        message := [], details := [], contact_preference := [], budget := [],
        length := [], style := [], hp := [] }
      ("1.2.3.4").toList [] [] 1000 wIso none wKey).2 = ⟨[], []⟩ := by
  refine ⟨by decide, ?_, ?_⟩
  · exact (createLead_validation_400 ⟨[], []⟩ _ (("1.2.3.4").toList) [] [] 1000 wIso
      none wKey (by decide) (.inr (by decide))).1
  · exact (createLead_validation_400 ⟨[], []⟩ _ (("1.2.3.4").toList) [] [] 1000 wIso
      none wKey (by decide) (.inr (by decide))).2.2

/-! ## C2: lifecycle stamps -/

theorem stampLifecycle_status (existing out : LeadRecord) (nowIso : Str) :
    (stampLifecycle existing out nowIso).status = out.status := by
  simp only [stampLifecycle]
  split_ifs <;> rfl

theorem stampLifecycle_updated_at (existing out : LeadRecord) (nowIso : Str) :
    (stampLifecycle existing out nowIso).updated_at = out.updated_at := by
  simp only [stampLifecycle]
  split_ifs <;> rfl

theorem stampLifecycle_tags (existing out : LeadRecord) (nowIso : Str) :
    (stampLifecycle existing out nowIso).tags = out.tags := by
  simp only [stampLifecycle]
  split_ifs <;> rfl

theorem stampLifecycle_contacted_at (existing out : LeadRecord) (nowIso : Str) :
    (stampLifecycle existing out nowIso).contacted_at =
      if existing.status ≠ out.status then
        (if (out.status = ("contacted").toList && optStrFalsy out.contacted_at : Bool)
          then some nowIso else out.contacted_at)
      else out.contacted_at := by
  simp only [stampLifecycle]
  split_ifs <;> simp_all

theorem stampLifecycle_closed_at (existing out : LeadRecord) (nowIso : Str) :
    (stampLifecycle existing out nowIso).closed_at =
      if existing.status ≠ out.status then
        (if ((out.status = ("closed").toList || out.status = ("booked").toList)
              && optStrFalsy out.closed_at : Bool)
          then some nowIso else out.closed_at)
      else out.closed_at := by
  simp only [stampLifecycle]
  split_ifs <;> simp_all

theorem applyPatch_ok_eq {existing : LeadRecord} {patch : Patch} {nowIso : Str}
    {out : LeadRecord} (h : applyPatch existing patch nowIso = .ok out) :
    ∃ s, patchedStatus existing patch = .ok s ∧
      out = stampLifecycle existing (patchedFields existing patch s nowIso) nowIso := by
  unfold applyPatch at h
  cases hm : patchedStatus existing patch with
  | error e => rw [hm] at h; exact absurd h (by simp)
  | ok s =>
      rw [hm] at h
      simp only [Except.ok.injEq] at h
      exact ⟨s, rfl, h.symm⟩

theorem applyPatch_updated_at {existing : LeadRecord} {patch : Patch}
    {nowIso : Str} {out : LeadRecord}
    (h : applyPatch existing patch nowIso = .ok out) : out.updated_at = nowIso := by
  obtain ⟨s, _, hout⟩ := applyPatch_ok_eq h
  rw [hout, stampLifecycle_updated_at]
  rfl

theorem applyPatch_contacted_stamp {existing : LeadRecord} {patch : Patch}
    {nowIso : Str} {out : LeadRecord}
    (h : applyPatch existing patch nowIso = .ok out)
    (hneq : existing.status ≠ out.status)
    (hcont : out.status = ("contacted").toList)
    (hnone : existing.contacted_at = none) : out.contacted_at = some nowIso := by
  obtain ⟨s, _, hout⟩ := applyPatch_ok_eq h
  have hstat : out.status = s := by
    rw [hout, stampLifecycle_status]
    rfl
  have hneq' : existing.status ≠ (patchedFields existing patch s nowIso).status := by
    show existing.status ≠ s
    rw [← hstat]
    exact hneq
  have hcond : ((patchedFields existing patch s nowIso).status = ("contacted").toList
      && optStrFalsy (patchedFields existing patch s nowIso).contacted_at) = true := by
    show (s = ("contacted").toList && optStrFalsy existing.contacted_at : Bool) = true
    rw [← hstat, hnone]
    simp [hcont, optStrFalsy]
  rw [hout, stampLifecycle_contacted_at, if_pos hneq', if_pos hcond]

theorem applyPatch_closed_stamp {existing : LeadRecord} {patch : Patch}
    {nowIso : Str} {out : LeadRecord}
    (h : applyPatch existing patch nowIso = .ok out)
    (hneq : existing.status ≠ out.status)
    (hcb : out.status = ("closed").toList ∨ out.status = ("booked").toList)
    (hnone : existing.closed_at = none) : out.closed_at = some nowIso := by
  obtain ⟨s, _, hout⟩ := applyPatch_ok_eq h
  have hstat : out.status = s := by
    rw [hout, stampLifecycle_status]
    rfl
  have hneq' : existing.status ≠ (patchedFields existing patch s nowIso).status := by
    show existing.status ≠ s
    rw [← hstat]
    exact hneq
  have hcond : (((patchedFields existing patch s nowIso).status = ("closed").toList
        || (patchedFields existing patch s nowIso).status = ("booked").toList)
      && optStrFalsy (patchedFields existing patch s nowIso).closed_at) = true := by
    show ((s = ("closed").toList || s = ("booked").toList)
        && optStrFalsy existing.closed_at : Bool) = true
    rw [← hstat, hnone]
    rcases hcb with hc | hc <;> simp [hc, optStrFalsy]
  rw [hout, stampLifecycle_closed_at, if_pos hneq', if_pos hcond]

theorem applyPatch_contacted_preserved {existing : LeadRecord} {patch : Patch}
    {nowIso : Str} {out : LeadRecord}
    (h : applyPatch existing patch nowIso = .ok out)
    (v : Str) (hv : existing.contacted_at = some v) (hvne : v ≠ []) :
    out.contacted_at = some v := by
  obtain ⟨s, _, hout⟩ := applyPatch_ok_eq h
  have hfalse : optStrFalsy (some v) = false := by simp [optStrFalsy, hvne]
  have hbase : (patchedFields existing patch s nowIso).contacted_at = some v := hv
  rw [hout, stampLifecycle_contacted_at, hbase]
  split_ifs with h1 h2
  · rw [hfalse] at h2
    simp at h2
  · rfl
  · rfl

theorem applyPatch_closed_preserved {existing : LeadRecord} {patch : Patch}
    {nowIso : Str} {out : LeadRecord}
    (h : applyPatch existing patch nowIso = .ok out)
    (v : Str) (hv : existing.closed_at = some v) (hvne : v ≠ []) :
    out.closed_at = some v := by
  obtain ⟨s, _, hout⟩ := applyPatch_ok_eq h
  have hfalse : optStrFalsy (some v) = false := by simp [optStrFalsy, hvne]
  have hbase : (patchedFields existing patch s nowIso).closed_at = some v := hv
  rw [hout, stampLifecycle_closed_at, hbase]
  split_ifs with h1 h2
  · rw [hfalse] at h2
    simp at h2
  · rfl
  · rfl

theorem patchedStatus_contacted (rec : LeadRecord) :
    patchedStatus rec ⟨some (.str (("contacted").toList)), none, none, none⟩ =
      .ok (("contacted").toList) := by
  show (if normalizeStatus (.str (("contacted").toList)) ∈ VALID_STATUSES
      then Except.ok (normalizeStatus (.str (("contacted").toList)))
      else Except.error ("Invalid status").toList) = .ok (("contacted").toList)
  rw [if_pos (by decide)]
  have : normalizeStatus (.str (("contacted").toList)) = ("contacted").toList := by decide
  rw [this]

theorem applyPatch_double_contacted (rec r1 r2 : LeadRecord) (n1 n2 : Str)
    (hnone : rec.contacted_at = none) (hne : rec.status ≠ ("contacted").toList)
    (h1 : applyPatch rec ⟨some (.str (("contacted").toList)), none, none, none⟩ n1 = .ok r1)
    (h2 : applyPatch r1 ⟨some (.str (("contacted").toList)), none, none, none⟩ n2 = .ok r2) :
    r1.contacted_at = some n1 ∧ r2.contacted_at = some n1 := by
  obtain ⟨s1, hm1, hr1⟩ := applyPatch_ok_eq h1
  rw [patchedStatus_contacted] at hm1
  injection hm1 with hm1
  subst hm1
  have hr1s : r1.status = ("contacted").toList := by
    rw [hr1, stampLifecycle_status]
    rfl
  have hr1c : r1.contacted_at = some n1 := by
    apply applyPatch_contacted_stamp h1 _ hr1s hnone
    rw [hr1s]
    exact hne
  obtain ⟨s2, hm2, hr2⟩ := applyPatch_ok_eq h2
  rw [patchedStatus_contacted] at hm2
  injection hm2 with hm2
  subst hm2
  have hr2c : r2.contacted_at = some n1 := by
    rw [hr2, stampLifecycle_contacted_at, if_neg]
    · exact hr1c
    · intro hcon
      apply hcon
      rw [hr1s]
      rfl
  exact ⟨hr1c, hr2c⟩

/-- Claim C2: every successful patch application refreshes `updated_at`;
on a status change into `contacted` the `contacted_at` stamp is set only
if it was unset, and on a status change into `closed` or `booked` the
`closed_at` stamp is set only if it was unset; a stamp already set to a
real (non-empty) timestamp is never overwritten by any later patch; in
particular, applying the patch `{status := "contacted"}` twice sets
`contacted_at` on the first application only. -/
theorem applyPatch_lifecycle_stamps (existing : LeadRecord) (patch : Patch)
    (nowIso : Str) (out : LeadRecord)
    (h : applyPatch existing patch nowIso = .ok out) :
    out.updated_at = nowIso ∧
    (existing.status ≠ out.status → out.status = ("contacted").toList →
      existing.contacted_at = none → out.contacted_at = some nowIso) ∧
    (existing.status ≠ out.status →
      (out.status = ("closed").toList ∨ out.status = ("booked").toList) →
      existing.closed_at = none → out.closed_at = some nowIso) ∧
    (∀ v, existing.contacted_at = some v → v ≠ [] → out.contacted_at = some v) ∧
    (∀ v, existing.closed_at = some v → v ≠ [] → out.closed_at = some v) ∧
    (∀ (rec r1 r2 : LeadRecord) (n1 n2 : Str),
      rec.contacted_at = none → rec.status ≠ ("contacted").toList →
      applyPatch rec ⟨some (.str (("contacted").toList)), none, none, none⟩ n1 = .ok r1 →
      applyPatch r1 ⟨some (.str (("contacted").toList)), none, none, none⟩ n2 = .ok r2 →
      r1.contacted_at = some n1 ∧ r2.contacted_at = some n1) :=
  ⟨applyPatch_updated_at h,
   fun hneq hcont hnone => applyPatch_contacted_stamp h hneq hcont hnone,
   fun hneq hcb hnone => applyPatch_closed_stamp h hneq hcb hnone,
   fun v hv hvne => applyPatch_contacted_preserved h v hv hvne,
   fun v hv hvne => applyPatch_closed_preserved h v hv hvne,
   fun rec r1 r2 n1 n2 hnone hne h1 h2 =>
     applyPatch_double_contacted rec r1 r2 n1 n2 hnone hne h1 h2⟩

/-- The record obtained by stamping `wRecord` as contacted, used by the
C2 witness. -/
def wContacted : LeadRecord :=
  (applyPatch wRecord ⟨some (.str (("contacted").toList)), none, none, none⟩
    wIso).toOption.getD wRecord

/-- Witness for C2: patching the sample record to `contacted` refreshes
`updated_at` and stamps `contacted_at`. -/
theorem applyPatch_lifecycle_stamps_witness :
    applyPatch wRecord ⟨some (.str (("contacted").toList)), none, none, none⟩ wIso =
      .ok wContacted ∧
    wContacted.updated_at = wIso ∧ wContacted.contacted_at = some wIso :=
  ⟨rfl,
   (applyPatch_lifecycle_stamps wRecord
     ⟨some (.str (("contacted").toList)), none, none, none⟩ wIso wContacted rfl).1,
   (applyPatch_lifecycle_stamps wRecord
     ⟨some (.str (("contacted").toList)), none, none, none⟩ wIso wContacted rfl).2.1
     (by decide) (by decide) (by decide)⟩

/-! ## C3: invalid status values -/

/-- Counterexample to claim C3 as stated: the status value `" NEW "` is
not, case-insensitively, a member of the fixed status set (its
lowercasing is `" new "`, which differs from every member by its
surrounding spaces), yet the update handler accepts it — `normalizeStatus`
also trims — returning 200 and writing to the store. -/
theorem leadsUpdate_untrimmed_status_accepted :
    toLowerStr ((" NEW ").toList) ∉ VALID_STATUSES ∧
    (leadsUpdate wStore1 ⟨wKey, ⟨some (.str ((" NEW ").toList)), none, none, none⟩⟩
      wIso).1.status = 200 ∧
    (leadsUpdate wStore1 ⟨wKey, ⟨some (.str ((" NEW ").toList)), none, none, none⟩⟩
      wIso).2 ≠ wStore1 := by
  refine ⟨by decide, by decide, by decide⟩

/-- Claim C3 (amended): for every stored record and every patch whose
status value, after trimming, truncation to 30 characters and
lowercasing (`normalizeStatus`), is not a member of the fixed status
set, the update operation returns a 400 error and the store is left
entirely unchanged (no write occurs). -/
theorem leadsUpdate_invalid_status_400 (store : List (Str × LeadRecord))
    (body : UpdateBody) (nowIso : Str) (v : JVal)
    (hs : body.patch.status = some v)
    (hinv : normalizeStatus v ∉ VALID_STATUSES) :
    (leadsUpdate store body nowIso).1.status = 400 ∧
    (leadsUpdate store body nowIso).1.ok = false ∧
    (leadsUpdate store body nowIso).2 = store := by
  unfold leadsUpdate
  by_cases hk : assertLeadKey body.id
  · simp [hk, hs, hinv]
  · simp [hk]

/-- Witness for C3 (amended) at the status value `"pending"`. -/
theorem leadsUpdate_invalid_status_400_witness :
    (⟨wKey, ⟨some (.str (("pending").toList)), none, none, none⟩⟩ : UpdateBody).patch.status
      = some (.str (("pending").toList)) ∧
    normalizeStatus (.str (("pending").toList)) ∉ VALID_STATUSES ∧
    (leadsUpdate wStore1 ⟨wKey, ⟨some (.str (("pending").toList)), none, none, none⟩⟩
      wIso).1.status = 400 ∧
    (leadsUpdate wStore1 ⟨wKey, ⟨some (.str (("pending").toList)), none, none, none⟩⟩
      wIso).2 = wStore1 :=
  ⟨rfl, by decide,
   (leadsUpdate_invalid_status_400 wStore1 _ wIso (.str (("pending").toList))
     rfl (by decide)).1,
   (leadsUpdate_invalid_status_400 wStore1 _ wIso (.str (("pending").toList))
     rfl (by decide)).2.2⟩

/-! ## C8: tag sanitization -/

theorem patchedFields_tags (existing : LeadRecord) (patch : Patch) (s : Str)
    (nowIso : Str) (l : List (Option JVal)) (hl : patch.tags = some l) :
    (patchedFields existing patch s nowIso).tags =
      ((l.map (fun t => sanitizeString t 40)).filter (fun t => t ≠ [])).take 25 := by
  have hshape : (patchedFields existing patch s nowIso).tags =
      (match patch.tags with
       | none => existing.tags
       | some l => ((l.map (fun t => sanitizeString t 40)).filter
           (fun t => t ≠ [])).take 25) := rfl
  rw [hshape, hl]

/-- Counterexample to claim C8 as stated: a non-string tag element (the
number `5`) is not dropped; it is coerced by `String(...)` inside
`sanitizeString` to the non-empty string `"5"` and kept. -/
theorem applyPatch_nonstring_tag_kept :
    (applyPatch wRecord ⟨none, none, some [some (.num 5)], none⟩ wIso).toOption.map
        (fun r => r.tags) = some [("5").toList] ∧
    (("5").toList : Str) ≠ [] := by
  refine ⟨by decide, by decide⟩

/-- Claim C8 (amended): for every patch carrying a `tags` field, the
resulting tag list is the supplied list with every element coerced to a
string, sanitized and truncated to at most 40 characters, with
`null`/`undefined` elements and elements that are empty after
sanitization dropped, capped at 25 elements; hence every resulting tag
is non-empty and at most 40 characters long and the list holds at most
25 of them. -/
theorem applyPatch_tags_sanitized (existing : LeadRecord) (patch : Patch)
    (l : List (Option JVal)) (nowIso : Str) (out : LeadRecord)
    (hl : patch.tags = some l)
    (h : applyPatch existing patch nowIso = .ok out) :
    out.tags = ((l.map (fun t => sanitizeString t 40)).filter (fun t => t ≠ [])).take 25 ∧
    out.tags.length ≤ 25 ∧
    (∀ t ∈ out.tags, t ≠ [] ∧ t.length ≤ 40) := by
  obtain ⟨s, _, hout⟩ := applyPatch_ok_eq h
  have htags : out.tags =
      ((l.map (fun t => sanitizeString t 40)).filter (fun t => t ≠ [])).take 25 := by
    rw [hout, stampLifecycle_tags, patchedFields_tags existing patch s nowIso l hl]
  refine ⟨htags, ?_, ?_⟩
  · rw [htags]
    simp [List.length_take]
  · intro t ht
    rw [htags] at ht
    have ht' := List.mem_of_mem_take ht
    have hmem := List.mem_filter.mp ht'
    refine ⟨by simpa using hmem.2, ?_⟩
    obtain ⟨x, _, hxe⟩ := List.mem_map.mp hmem.1
    rw [← hxe]
    cases x with
    | none => simp [sanitizeString]
    | some v => simp [sanitizeString, sanitizeStr, List.length_take]

/-- The record obtained by patching `wRecord` with a concrete tag list,
used by the C8 witness. -/
def wTagged : LeadRecord :=
  (applyPatch wRecord
    ⟨none, none, some [some (.str (("  VIP customer  ").toList)), none,
      some (.str (("   ").toList))], none⟩ wIso).toOption.getD wRecord

/-- Witness for C8 (amended): a tag list with a padded string, a null
and a blank string yields the single trimmed tag `"VIP customer"`. -/
theorem applyPatch_tags_sanitized_witness :
    applyPatch wRecord
      ⟨none, none, some [some (.str (("  VIP customer  ").toList)), none,
        some (.str (("   ").toList))], none⟩ wIso = .ok wTagged ∧
    wTagged.tags =
      (([some (.str (("  VIP customer  ").toList)), none,
         some (.str (("   ").toList))].map (fun t => sanitizeString t 40)).filter
        (fun t => t ≠ [])).take 25 ∧
    wTagged.tags.length ≤ 25 :=
  ⟨rfl,
   (applyPatch_tags_sanitized wRecord
     ⟨none, none, some [some (.str (("  VIP customer  ").toList)), none,
       some (.str (("   ").toList))], none⟩
     [some (.str (("  VIP customer  ").toList)), none,
      some (.str (("   ").toList))] wIso wTagged rfl (by rfl)).1,
   (applyPatch_tags_sanitized wRecord
     ⟨none, none, some [some (.str (("  VIP customer  ").toList)), none,
       some (.str (("   ").toList))], none⟩
     [some (.str (("  VIP customer  ").toList)), none,
      some (.str (("   ").toList))] wIso wTagged rfl (by rfl)).2.1⟩

/-! ## C9: pagination clamping -/

/-- Counterexample to claim C9 as stated: a non-numeric `limit`
parameter (for example `limit=abc`) makes `Number(...)` return NaN,
which `Math.max`/`Math.min` propagate, so the effective limit is NaN —
not a member of `[1, 200]` — and the returned page is empty even though
one record matches. -/
theorem leadsList_nan_limit :
    (leadsList wStore1 ⟨[], [], ("all").toList, some none, none⟩).limitOut = none ∧
    (leadsList wStore1 ⟨[], [], ("all").toList, some none, none⟩).total = 1 ∧
    (leadsList wStore1 ⟨[], [], ("all").toList, some none, none⟩).leads = [] := by
  refine ⟨by decide, by decide, by decide⟩

/-- Claim C9 (amended): for every listing request whose `limit` and
`offset` parameters are absent or parse to actual numbers (not NaN),
the effective limit lies in `[1, 200]` (50 when absent), the effective
offset is at least 0 (0 when absent), and the response carries the
pre-pagination match count together with the matches sliced by that
offset and limit. -/
theorem leadsList_pagination (store : List (Str × LeadRecord)) (q : ListQuery)
    (hl : q.limit = none ∨ ∃ n : Int, q.limit = some (some n))
    (ho : q.offset = none ∨ ∃ n : Int, q.offset = some (some n)) :
    ∃ L O : Int,
      effLimit q.limit = some L ∧ 1 ≤ L ∧ L ≤ 200 ∧
      (q.limit = none → L = 50) ∧
      effOffset q.offset = some O ∧ 0 ≤ O ∧
      (q.offset = none → O = 0) ∧
      (leadsList store q).limitOut = some L ∧
      (leadsList store q).offsetOut = some O ∧
      (leadsList store q).total = (listFiltered store q).length ∧
      (leadsList store q).leads =
        ((listFiltered store q).take (O + L).toNat).drop O.toNat := by
  have hLshape : ∃ L : Int, effLimit q.limit = some L ∧ 1 ≤ L ∧ L ≤ 200 ∧
      (q.limit = none → L = 50) := by
    rcases hl with hl | ⟨n, hl⟩
    · exact ⟨50, by simp [effLimit, hl, jsMin, jsMax], by omega, by omega, fun _ => rfl⟩
    · refine ⟨min 200 (max 1 n), by simp [effLimit, hl, jsMin, jsMax], ?_, ?_, ?_⟩
      · omega
      · omega
      · intro hnone
        rw [hl] at hnone
        exact absurd hnone (by simp)
  have hOshape : ∃ O : Int, effOffset q.offset = some O ∧ 0 ≤ O ∧
      (q.offset = none → O = 0) := by
    rcases ho with ho | ⟨n, ho⟩
    · exact ⟨0, by simp [effOffset, ho, jsMax], by omega, fun _ => rfl⟩
    · refine ⟨max 0 n, by simp [effOffset, ho, jsMax], ?_, ?_⟩
      · omega
      · intro hnone
        rw [ho] at hnone
        exact absurd hnone (by simp)
  obtain ⟨L, hL, hL1, hL2, hL50⟩ := hLshape
  obtain ⟨O, hO, hO0, hOd⟩ := hOshape
  refine ⟨L, O, hL, hL1, hL2, hL50, hO, hO0, hOd, ?_, ?_, rfl, ?_⟩
  · show effLimit q.limit = some L
    exact hL
  · show effOffset q.offset = some O
    exact hO
  · show jsSlice (listFiltered store q) (effOffset q.offset)
        (jsAdd (effOffset q.offset) (effLimit q.limit)) = _
    rw [hL, hO]
    rfl

/-- Witness for C9 (amended): `limit=500` clamps to 200 and a negative
offset clamps to 0. -/
theorem leadsList_pagination_witness :
    ((⟨[], [], [], some (some 500), some (some (-3))⟩ : ListQuery).limit = none ∨
      ∃ n : Int, (⟨[], [], [], some (some 500), some (some (-3))⟩ : ListQuery).limit
        = some (some n)) ∧
    ∃ L O : Int,
      effLimit (some (some 500)) = some L ∧ 1 ≤ L ∧ L ≤ 200 ∧
      effOffset (some (some (-3))) = some O ∧ 0 ≤ O := by
  refine ⟨.inr ⟨500, rfl⟩, ?_⟩
  obtain ⟨L, O, h1, h2, h3, _, h5, h6, _, _, _, _, _⟩ :=
    leadsList_pagination wStore1 ⟨[], [], [], some (some 500), some (some (-3))⟩
      (.inr ⟨500, rfl⟩) (.inr ⟨-3, rfl⟩)
  exact ⟨L, O, h1, h2, h3, h5, h6⟩

/-! ## C7: suggested DM production -/

set_option maxRecDepth 8192 in
theorem fallbackDm_ne_nil (name : Str) : fallbackDm name ≠ [] := by
  unfold fallbackDm
  intro h
  have hlen := congrArg List.length h
  simp only [List.length_append, List.length_nil, List.length_cons] at hlen
  have h1 : (("Hi ").toList).length = 3 := by rfl
  omega

theorem fallbackDm_length_le (name : Str) : (fallbackDm name).length ≤ 550 := by
  have hfirst : (jsOr (sanitizeStr name 40) (("there").toList)).length ≤ 40 := by
    unfold jsOr
    split_ifs with h
    · decide
    · unfold sanitizeStr
      simp [List.length_take]
  unfold fallbackDm
  simp only [List.length_append, List.length_cons, List.length_nil]
  have h1 : (("Hi ").toList).length = 3 := by rfl
  have h2 : ((" — thanks for reaching out. What style/length are you wanting, and what days/times work best? ").toList).length = 94 := by rfl
  have h3 : BOOKING_SCRIPT.length = 155 := by rfl
  omega

theorem generatedDmText_length_le (t : Str) : (generatedDmText t).length ≤ 550 := by
  simp only [generatedDmText]
  split_ifs with h
  · simp [List.length_take]
  · omega

theorem suggestedDm_ne_nil (gen : Option Str) (name : Str) :
    suggestedDm gen name ≠ [] := by
  cases gen with
  | none => exact fallbackDm_ne_nil name
  | some t =>
      simp only [suggestedDm]
      split_ifs with h
      · exact fallbackDm_ne_nil name
      · exact h

theorem suggestedDm_length_le (gen : Option Str) (name : Str) :
    (suggestedDm gen name).length ≤ 550 := by
  cases gen with
  | none => exact fallbackDm_length_le name
  | some t =>
      simp only [suggestedDm]
      split_ifs with h
      · exact fallbackDm_length_le name
      · exact generatedDmText_length_le t

theorem createLead_success (st : StoreState) (body : Body)
    (ip referrer userAgent : Str) (nowMs : Int) (nowIso : Str)
    (gen : Option Str) (uuid : Str) (lead : Lead)
    (hv : validatePayload body = .ok lead)
    (hhp : sanitizeStr body.hp 200 = [])
    (hr : rateAllows st ip nowMs) :
    (createLead st body ip referrer userAgent nowMs nowIso gen uuid).1 =
      { status := 200, ok := true, error := [], idOut := newLeadKey nowIso uuid,
        suggested_dm := suggestedDm gen lead.name } ∧
    (createLead st body ip referrer userAgent nowMs nowIso gen uuid).2.leads =
      setAssoc st.leads (newLeadKey nowIso uuid)
        (newLeadRecord lead ip referrer userAgent nowIso (newLeadKey nowIso uuid)
          (suggestedDm gen lead.name)) := by
  unfold createLead
  rcases hr with hip | hrk | hrc
  · simp [hhp, hv, hip]
  · by_cases hip : ip = []
    · simp [hhp, hv, hip]
    · simp [hhp, hv, hip, hrk]
  · by_cases hip : ip = []
    · simp [hhp, hv, hip]
    · by_cases hrk : rateKeyForIp ip = []
      · simp [hhp, hv, hrk]
      · cases hc : rateCheck (getAssoc st.rates (rateKeyForIp ip)) nowMs with
        | reject => exact absurd hc hrc
        | admitted next => simp [hhp, hv, hip, hrk, hc]

/-- Claim C7: every admitted lead creation succeeds whatever the outcome
of the external generation call; the `suggested_dm` of the response is
non-empty and at most 550 characters, the persisted record carries the
same text, and the text is the (trimmed, capped) service output when the
service succeeded with a non-empty result, and the deterministic
name-plus-booking-script fallback when the call failed or came back
empty. -/
theorem createLead_suggested_dm (st : StoreState) (body : Body)
    (ip referrer userAgent : Str) (nowMs : Int) (nowIso : Str)
    (gen : Option Str) (uuid : Str) (lead : Lead)
    (hv : validatePayload body = .ok lead)
    (hhp : sanitizeStr body.hp 200 = [])
    (hr : rateAllows st ip nowMs) :
    (createLead st body ip referrer userAgent nowMs nowIso gen uuid).1.status = 200 ∧
    (createLead st body ip referrer userAgent nowMs nowIso gen uuid).1.suggested_dm ≠ [] ∧
    (createLead st body ip referrer userAgent nowMs nowIso gen uuid).1.suggested_dm.length ≤ 550 ∧
    getAssoc (createLead st body ip referrer userAgent nowMs nowIso gen uuid).2.leads
        (newLeadKey nowIso uuid) =
      some (newLeadRecord lead ip referrer userAgent nowIso (newLeadKey nowIso uuid)
        (suggestedDm gen lead.name)) ∧
    (newLeadRecord lead ip referrer userAgent nowIso (newLeadKey nowIso uuid)
        (suggestedDm gen lead.name)).suggested_dm =
      (createLead st body ip referrer userAgent nowMs nowIso gen uuid).1.suggested_dm ∧
    (gen = none →
      (createLead st body ip referrer userAgent nowMs nowIso gen uuid).1.suggested_dm =
        fallbackDm lead.name) ∧
    (∀ t, gen = some t → generatedDmText t ≠ [] →
      (createLead st body ip referrer userAgent nowMs nowIso gen uuid).1.suggested_dm =
        generatedDmText t) ∧
    (∀ t, gen = some t → generatedDmText t = [] →
      (createLead st body ip referrer userAgent nowMs nowIso gen uuid).1.suggested_dm =
        fallbackDm lead.name) := by
  obtain ⟨h1, h2⟩ :=
    createLead_success st body ip referrer userAgent nowMs nowIso gen uuid lead hv hhp hr
  rw [h1, h2]
  refine ⟨rfl, suggestedDm_ne_nil gen lead.name, suggestedDm_length_le gen lead.name,
    getAssoc_setAssoc_self _ _ _, rfl, ?_, ?_, ?_⟩
  · intro hg
    rw [hg]
    rfl
  · intro t hg hne
    rw [hg]
    show (if generatedDmText t = [] then fallbackDm lead.name else generatedDmText t) = _
    rw [if_neg hne]
  · intro t hg he
    rw [hg]
    show (if generatedDmText t = [] then fallbackDm lead.name else generatedDmText t) = _
    rw [if_pos he]

/-- A sample valid submission body used by witnesses. -/
def wBody : Body :=
  { name := ("Jess").toList, full_name := [], phone := ("4355551234").toList,
    mobile := [], phone_number := [], instagram := [], ig := [],
    service := ("fill").toList, requested_service := [], availability := [],
    timeframe := [], notes := [], message := [], details := [],
    contact_preference := [], budget := [], length := [], style := [], hp := [] }

/-- The canonical lead extracted from `wBody`. -/
def wBodyLead : Lead :=
  (validatePayload wBody).toOption.getD wLead

/-- Witness for C7: a concrete creation with a failed generation call
returns 200 with the non-empty fallback DM. -/
theorem createLead_suggested_dm_witness :
    validatePayload wBody = .ok wBodyLead ∧
    sanitizeStr wBody.hp 200 = [] ∧
    rateAllows ⟨[], []⟩ (("1.2.3.4").toList) 1000 ∧
    (createLead ⟨[], []⟩ wBody (("1.2.3.4").toList) [] [] 1000 wIso none
      (("00000000-0000-0000-0000-000000000000").toList)).1.status = 200 ∧
    (createLead ⟨[], []⟩ wBody (("1.2.3.4").toList) [] [] 1000 wIso none
      (("00000000-0000-0000-0000-000000000000").toList)).1.suggested_dm ≠ [] := by
  have hv : validatePayload wBody = .ok wBodyLead := by rfl
  have hr : rateAllows ⟨[], []⟩ (("1.2.3.4").toList) 1000 := by
    right
    right
    intro h
    exact absurd h (by decide)
  refine ⟨hv, by decide, hr, ?_, ?_⟩
  · exact (createLead_suggested_dm ⟨[], []⟩ wBody (("1.2.3.4").toList) [] [] 1000 wIso
      none (("00000000-0000-0000-0000-000000000000").toList) wBodyLead hv (by decide) hr).1
  · exact (createLead_suggested_dm ⟨[], []⟩ wBody (("1.2.3.4").toList) [] [] 1000 wIso
      none (("00000000-0000-0000-0000-000000000000").toList) wBodyLead hv (by decide) hr).2.1

/-! ## C1: the rate-limit window -/

theorem rateCheck_none (t : Int) : rateCheck none t = .admitted ⟨t, 1, t⟩ := rfl

theorem rateCheck_in_window_admitted (w c l t : Int) (hw : w ≠ 0)
    (hlt : t - w < WINDOW_MS) (hc : c < MAX_REQ) :
    rateCheck (some ⟨w, c, l⟩) t = .admitted ⟨w, c + 1, t⟩ := by
  have h3 : ¬(c ≥ MAX_REQ) := by omega
  simp only [rateCheck]
  simp [hw, hlt, h3]

theorem rateCheck_full_reject (w c l t : Int) (hw : w ≠ 0)
    (hlt : t - w < WINDOW_MS) (hc : MAX_REQ ≤ c) :
    rateCheck (some ⟨w, c, l⟩) t = .reject := by
  have h3 : c ≥ MAX_REQ := hc
  simp only [rateCheck]
  simp [hw, hlt, h3]

theorem rateCheck_expired_admitted (w c l t : Int) (hge : WINDOW_MS ≤ t - w) :
    rateCheck (some ⟨w, c, l⟩) t = .admitted ⟨t, 1, t⟩ := by
  have hn : ¬(t - w < WINDOW_MS) := by omega
  simp only [rateCheck]
  simp [hn]

theorem createLead_rate_reject (st : StoreState) (body : Body)
    (ip referrer userAgent : Str) (nowMs : Int) (nowIso : Str)
    (gen : Option Str) (uuid : Str) (lead : Lead)
    (hv : validatePayload body = .ok lead)
    (hhp : sanitizeStr body.hp 200 = [])
    (hip : ip ≠ []) (hrk : rateKeyForIp ip ≠ [])
    (hrc : rateCheck (getAssoc st.rates (rateKeyForIp ip)) nowMs = .reject) :
    createLead st body ip referrer userAgent nowMs nowIso gen uuid =
      ({ status := 429, ok := false, error := ("Too many requests").toList,
         idOut := [], suggested_dm := [] }, st) := by
  unfold createLead
  simp [hhp, hv, hip, hrk, hrc]

theorem createLead_rate_admitted (st : StoreState) (body : Body)
    (ip referrer userAgent : Str) (nowMs : Int) (nowIso : Str)
    (gen : Option Str) (uuid : Str) (lead : Lead) (next : RateRec)
    (hv : validatePayload body = .ok lead)
    (hhp : sanitizeStr body.hp 200 = [])
    (hip : ip ≠ []) (hrk : rateKeyForIp ip ≠ [])
    (hrc : rateCheck (getAssoc st.rates (rateKeyForIp ip)) nowMs = .admitted next) :
    (createLead st body ip referrer userAgent nowMs nowIso gen uuid).1.status = 200 ∧
    (createLead st body ip referrer userAgent nowMs nowIso gen uuid).2.rates =
      setAssoc st.rates (rateKeyForIp ip) next := by
  unfold createLead
  simp [hhp, hv, hip, hrk, hrc]

/-- Claim C1: from a fresh state, three submissions from one source
within the ten-minute window are all admitted (200), the fourth within
the same window is rejected with 429 and writes nothing, and a
submission issued after the window has elapsed is admitted and starts a
fresh window whose count is 1. -/
theorem createLead_rate_window (body : Body) (ip referrer userAgent : Str)
    (lead : Lead) (t1 t2 t3 t4 t5 : Int)
    (iso1 iso2 iso3 iso4 iso5 u1 u2 u3 u4 u5 : Str) (gen : Option Str)
    (r1 r2 r3 r4 r5 : CreateResp) (s1 s2 s3 s4 s5 : StoreState)
    (hv : validatePayload body = .ok lead)
    (hhp : sanitizeStr body.hp 200 = [])
    (hrk : rateKeyForIp ip ≠ [])
    (ht1 : 0 < t1)
    (hw2 : 0 ≤ t2 - t1 ∧ t2 - t1 < WINDOW_MS)
    (hw3 : 0 ≤ t3 - t1 ∧ t3 - t1 < WINDOW_MS)
    (hw4 : 0 ≤ t4 - t1 ∧ t4 - t1 < WINDOW_MS)
    (hw5 : WINDOW_MS ≤ t5 - t1)
    (e1 : createLead ⟨[], []⟩ body ip referrer userAgent t1 iso1 gen u1 = (r1, s1))
    (e2 : createLead s1 body ip referrer userAgent t2 iso2 gen u2 = (r2, s2))
    (e3 : createLead s2 body ip referrer userAgent t3 iso3 gen u3 = (r3, s3))
    (e4 : createLead s3 body ip referrer userAgent t4 iso4 gen u4 = (r4, s4))
    (e5 : createLead s4 body ip referrer userAgent t5 iso5 gen u5 = (r5, s5)) :
    r1.status = 200 ∧ r2.status = 200 ∧ r3.status = 200 ∧
    r4.status = 429 ∧ s4 = s3 ∧
    r5.status = 200 ∧
    getAssoc s5.rates (rateKeyForIp ip) = some ⟨t5, 1, t5⟩ := by
  have hip : ip ≠ [] := by
    intro h
    apply hrk
    rw [h]
    rfl
  -- call 1: empty store, fresh window
  have hc1 : rateCheck (getAssoc (⟨[], []⟩ : StoreState).rates (rateKeyForIp ip)) t1 =
      .admitted ⟨t1, 1, t1⟩ := rateCheck_none t1
  have hcall1 := createLead_rate_admitted (⟨[], []⟩ : StoreState) body ip referrer
    userAgent t1 iso1 gen u1 lead (⟨t1, 1, t1⟩ : RateRec) hv hhp hip hrk hc1
  rw [e1] at hcall1
  obtain ⟨hr1, hs1⟩ := hcall1
  have hg1 : getAssoc s1.rates (rateKeyForIp ip) = some ⟨t1, 1, t1⟩ := by
    rw [hs1]
    exact getAssoc_setAssoc_self [] (rateKeyForIp ip) (⟨t1, 1, t1⟩ : RateRec)
  -- call 2
  have hc2 : rateCheck (getAssoc s1.rates (rateKeyForIp ip)) t2 = .admitted ⟨t1, 2, t2⟩ := by
    rw [hg1]
    have h := rateCheck_in_window_admitted t1 1 t1 t2 (by omega) hw2.2 (by decide)
    simpa using h
  have hcall2 := createLead_rate_admitted s1 body ip referrer userAgent t2 iso2 gen u2
    lead (⟨t1, 2, t2⟩ : RateRec) hv hhp hip hrk hc2
  rw [e2] at hcall2
  obtain ⟨hr2, hs2⟩ := hcall2
  have hg2 : getAssoc s2.rates (rateKeyForIp ip) = some ⟨t1, 2, t2⟩ := by
    rw [hs2]
    exact getAssoc_setAssoc_self _ (rateKeyForIp ip) _
  -- call 3
  have hc3 : rateCheck (getAssoc s2.rates (rateKeyForIp ip)) t3 = .admitted ⟨t1, 3, t3⟩ := by
    rw [hg2]
    have h := rateCheck_in_window_admitted t1 2 t2 t3 (by omega) hw3.2 (by decide)
    simpa using h
  have hcall3 := createLead_rate_admitted s2 body ip referrer userAgent t3 iso3 gen u3
    lead (⟨t1, 3, t3⟩ : RateRec) hv hhp hip hrk hc3
  rw [e3] at hcall3
  obtain ⟨hr3, hs3⟩ := hcall3
  have hg3 : getAssoc s3.rates (rateKeyForIp ip) = some ⟨t1, 3, t3⟩ := by
    rw [hs3]
    exact getAssoc_setAssoc_self _ (rateKeyForIp ip) _
  -- call 4: window full, rejected, nothing written
  have hc4 : rateCheck (getAssoc s3.rates (rateKeyForIp ip)) t4 = .reject := by
    rw [hg3]
    exact rateCheck_full_reject t1 3 t3 t4 (by omega) hw4.2 (by decide)
  have h4 := createLead_rate_reject s3 body ip referrer userAgent t4 iso4 gen u4 lead
    hv hhp hip hrk hc4
  rw [e4] at h4
  have hr4 : r4.status = 429 := by
    have h := congrArg (fun p => p.1.status) h4
    simpa using h
  have hs4 : s4 = s3 := by
    have h := congrArg Prod.snd h4
    simpa using h
  -- call 5: window elapsed, fresh window of count 1
  have hc5 : rateCheck (getAssoc s4.rates (rateKeyForIp ip)) t5 = .admitted ⟨t5, 1, t5⟩ := by
    rw [hs4, hg3]
    exact rateCheck_expired_admitted t1 3 t3 t5 hw5
  have hcall5 := createLead_rate_admitted s4 body ip referrer userAgent t5 iso5 gen u5
    lead (⟨t5, 1, t5⟩ : RateRec) hv hhp hip hrk hc5
  rw [e5] at hcall5
  obtain ⟨hr5, hs5⟩ := hcall5
  have hg5 : getAssoc s5.rates (rateKeyForIp ip) = some ⟨t5, 1, t5⟩ := by
    rw [hs5]
    exact getAssoc_setAssoc_self _ (rateKeyForIp ip) _
  exact ⟨hr1, hr2, hr3, hr4, hs4, hr5, hg5⟩

/-- A sample source address used by witnesses. -/
def ipW : Str := ("1.2.3.4").toList

/-- First concrete run in the C1 witness chain. -/
def wRun1 : CreateResp × StoreState :=
  createLead ⟨[], []⟩ wBody ipW [] [] 1000 wIso none (("a").toList)

/-- Second concrete run in the C1 witness chain. -/
def wRun2 : CreateResp × StoreState :=
  createLead wRun1.2 wBody ipW [] [] 2000 wIso none (("b").toList)

/-- Third concrete run in the C1 witness chain. -/
def wRun3 : CreateResp × StoreState :=
  createLead wRun2.2 wBody ipW [] [] 3000 wIso none (("c").toList)

/-- Fourth concrete run in the C1 witness chain. -/
def wRun4 : CreateResp × StoreState :=
  createLead wRun3.2 wBody ipW [] [] 4000 wIso none (("d").toList)

/-- Fifth concrete run in the C1 witness chain. -/
def wRun5 : CreateResp × StoreState :=
  createLead wRun4.2 wBody ipW [] [] 601001 wIso none (("e").toList)

/-- Witness for C1: five concrete submissions from one source at times
1000, 2000, 3000, 4000 (all inside one window) and 601001 (after the
window) observe 200, 200, 200, 429 and 200, and the final rate record
is a fresh window of count 1. -/
theorem createLead_rate_window_witness :
    rateKeyForIp ipW ≠ [] ∧ (0 : Int) < 1000 ∧
    (0 ≤ (2000 : Int) - 1000 ∧ (2000 : Int) - 1000 < WINDOW_MS) ∧
    (0 ≤ (3000 : Int) - 1000 ∧ (3000 : Int) - 1000 < WINDOW_MS) ∧
    (0 ≤ (4000 : Int) - 1000 ∧ (4000 : Int) - 1000 < WINDOW_MS) ∧
    WINDOW_MS ≤ (601001 : Int) - 1000 ∧
    (wRun1.1.status = 200 ∧ wRun2.1.status = 200 ∧ wRun3.1.status = 200 ∧
     wRun4.1.status = 429 ∧ wRun4.2 = wRun3.2 ∧ wRun5.1.status = 200 ∧
     getAssoc wRun5.2.rates (rateKeyForIp ipW) = some ⟨601001, 1, 601001⟩) := by
  refine ⟨by decide, by decide, ⟨by decide, by decide⟩, ⟨by decide, by decide⟩,
    ⟨by decide, by decide⟩, by decide, ?_⟩
  exact createLead_rate_window wBody ipW [] [] wBodyLead 1000 2000 3000 4000 601001
    wIso wIso wIso wIso wIso (("a").toList) (("b").toList) (("c").toList)
    (("d").toList) (("e").toList) none
    wRun1.1 wRun2.1 wRun3.1 wRun4.1 wRun5.1 wRun1.2 wRun2.2 wRun3.2 wRun4.2 wRun5.2
    (by rfl) (by decide) (by decide) (by decide) ⟨by decide, by decide⟩
    ⟨by decide, by decide⟩ ⟨by decide, by decide⟩ (by decide) rfl rfl rfl rfl rfl

/-! ## C4: archived filtering and newest-first ordering -/

theorem getAssoc_cons {A : Type} (k0 : Str) (v0 : A) (rest : List (Str × A))
    (k : Str) :
    getAssoc ((k0, v0) :: rest) k = if k0 = k then some v0 else getAssoc rest k :=
  rfl

theorem getAssoc_mem {A : Type} {l : List (Str × A)} {k : Str} {v : A}
    (h : getAssoc l k = some v) : (k, v) ∈ l := by
  induction l with
  | nil => exact absurd h (by simp [getAssoc])
  | cons p rest ih =>
      obtain ⟨k0, v0⟩ := p
      rw [getAssoc_cons] at h
      by_cases hk : k0 = k
      · rw [if_pos hk] at h
        injection h with hv
        rw [← hk, ← hv]
        exact List.mem_cons_self _ _
      · rw [if_neg hk] at h
        exact List.mem_cons_of_mem _ (ih h)

theorem getAssoc_eq_none_iff {A : Type} {l : List (Str × A)} {k : Str} :
    getAssoc l k = none ↔ k ∉ l.map Prod.fst := by
  induction l with
  | nil => simp [getAssoc]
  | cons p rest ih =>
      obtain ⟨k0, v0⟩ := p
      rw [getAssoc_cons, List.map_cons]
      by_cases hk : k0 = k
      · rw [if_pos hk]
        constructor
        · intro h
          exact absurd h (Option.some_ne_none v0)
        · intro hnot
          exact absurd (hk ▸ List.mem_cons_self k0 (rest.map Prod.fst)) hnot
      · rw [if_neg hk, ih]
        constructor
        · intro hnot hmem
          rcases List.mem_cons.mp hmem with he | hm
          · exact hk he.symm
          · exact hnot hm
        · intro hnot hm
          exact hnot (List.mem_cons_of_mem _ hm)

theorem mem_getAssoc {A : Type} {l : List (Str × A)} {k : Str} {v : A}
    (hnd : (l.map Prod.fst).Nodup) (h : (k, v) ∈ l) : getAssoc l k = some v := by
  induction l with
  | nil => simp at h
  | cons p rest ih =>
      obtain ⟨k0, v0⟩ := p
      rw [List.map_cons, List.nodup_cons] at hnd
      rw [getAssoc_cons]
      rcases List.mem_cons.mp h with heq | hmem
      · injection heq with h1 h2
        rw [if_pos h1.symm, h2]
      · by_cases hk : k0 = k
        · exfalso
          apply hnd.1
          rw [hk]
          have hmm := List.mem_map_of_mem Prod.fst hmem
          exact hmm
        · rw [if_neg hk]
          exact ih hnd.2 hmem

theorem getAssoc_perm {A : Type} {l l' : List (Str × A)}
    (hnd : (l.map Prod.fst).Nodup) (hperm : l.Perm l') (k : Str) :
    getAssoc l k = getAssoc l' k := by
  have hnd' : (l'.map Prod.fst).Nodup := ((hperm.map Prod.fst).nodup_iff).mp hnd
  cases h : getAssoc l k with
  | none =>
      have hk := getAssoc_eq_none_iff.mp h
      have hk' : k ∉ l'.map Prod.fst := fun hmem =>
        hk ((hperm.map Prod.fst).mem_iff.mpr hmem)
      exact (getAssoc_eq_none_iff.mpr hk').symm
  | some v =>
      have hmem : (k, v) ∈ l' := hperm.mem_iff.mp (getAssoc_mem h)
      exact (mem_getAssoc hnd' hmem).symm

theorem map_id_filterMap_getAssoc_sublist (store : List (Str × LeadRecord))
    (hid : ∀ p ∈ store, (p.2).id = p.1) (keys : List Str) :
    List.Sublist ((keys.filterMap (getAssoc store)).map LeadRecord.id) keys := by
  induction keys with
  | nil => simp
  | cons k ks ih =>
      rw [List.filterMap_cons]
      cases h : getAssoc store k with
      | none => exact List.Sublist.cons k ih
      | some r =>
          have hr : r.id = k := hid (k, r) (getAssoc_mem h)
          rw [List.map_cons, hr]
          exact List.Sublist.cons₂ k ih

theorem listFiltered_eq (store : List (Str × LeadRecord)) (q : ListQuery) :
    listFiltered store q =
      ((((List.insertionSort (fun a b : Str => b ≤ a)
          (store.map Prod.fst)).filterMap (getAssoc store)).filter
            (matchesArchived (archivedMode q.archived))).filter
          (matchesStatus (toLowerStr (jsTrim q.status)))).filter
        (matchesQ (toLowerStr (jsTrim q.q))) := rfl

theorem listFiltered_sublist (store : List (Str × LeadRecord)) (q : ListQuery) :
    List.Sublist (listFiltered store q)
      ((List.insertionSort (fun a b : Str => b ≤ a)
        (store.map Prod.fst)).filterMap (getAssoc store)) := by
  rw [listFiltered_eq]
  exact ((List.filter_sublist _).trans (List.filter_sublist _)).trans
    (List.filter_sublist _)

theorem listFiltered_ids_sorted (store : List (Str × LeadRecord)) (q : ListQuery)
    (hid : ∀ p ∈ store, (p.2).id = p.1) :
    List.Sorted (fun a b : Str => b ≤ a) ((listFiltered store q).map LeadRecord.id) := by
  have hkeys : List.Sorted (fun a b : Str => b ≤ a)
      (List.insertionSort (fun a b : Str => b ≤ a) (store.map Prod.fst)) :=
    List.sorted_insertionSort _ _
  have hsub : List.Sublist ((listFiltered store q).map LeadRecord.id)
      (List.insertionSort (fun a b : Str => b ≤ a) (store.map Prod.fst)) :=
    ((listFiltered_sublist store q).map LeadRecord.id).trans
      (map_id_filterMap_getAssoc_sublist store hid _)
  exact hkeys.sublist hsub

theorem leads_page_sublist (store : List (Str × LeadRecord)) (q : ListQuery) :
    List.Sublist (leadsList store q).leads (listFiltered store q) := by
  show List.Sublist (jsSlice (listFiltered store q) _ _) (listFiltered store q)
  unfold jsSlice
  exact (List.drop_sublist _ _).trans (List.take_sublist _ _)

theorem listFiltered_archived_excluded (store : List (Str × LeadRecord))
    (q : ListQuery) (harch : q.archived = []) :
    ∀ r ∈ listFiltered store q, r.archived = false := by
  intro r hr
  rw [listFiltered_eq] at hr
  have h1 := (List.mem_filter.mp hr).1
  have h2 := (List.mem_filter.mp h1).1
  have h3 := (List.mem_filter.mp h2).2
  rw [harch] at h3
  have hmode : archivedMode [] = ("false").toList := by decide
  rw [hmode] at h3
  unfold matchesArchived at h3
  rw [if_neg (by decide), if_neg (by decide)] at h3
  simpa using h3

theorem mem_listFiltered_all (store : List (Str × LeadRecord)) (q : ListQuery)
    (hnd : (store.map Prod.fst).Nodup)
    (harch : q.archived = ("all").toList) (hst : q.status = []) (hq : q.q = [])
    (p : Str × LeadRecord) (hp : p ∈ store) : p.2 ∈ listFiltered store q := by
  rw [listFiltered_eq]
  have hkey : p.1 ∈ List.insertionSort (fun a b : Str => b ≤ a) (store.map Prod.fst) :=
    (List.mem_insertionSort _).mpr (List.mem_map_of_mem Prod.fst hp)
  have hget : getAssoc store p.1 = some p.2 := mem_getAssoc hnd hp
  have hrec : p.2 ∈ (List.insertionSort (fun a b : Str => b ≤ a)
      (store.map Prod.fst)).filterMap (getAssoc store) :=
    List.mem_filterMap.mpr ⟨p.1, hkey, hget⟩
  have hmode : archivedMode (("all").toList) = ("all").toList := by decide
  refine List.mem_filter.mpr ⟨List.mem_filter.mpr ⟨List.mem_filter.mpr ⟨hrec, ?_⟩, ?_⟩, ?_⟩
  · rw [harch, hmode]
    unfold matchesArchived
    rw [if_pos rfl]
  · rw [hst]
    rfl
  · rw [hq]
    rfl

theorem listFiltered_perm (store store' : List (Str × LeadRecord)) (q : ListQuery)
    (hnd : (store.map Prod.fst).Nodup) (hperm : store.Perm store') :
    listFiltered store q = listFiltered store' q := by
  have hkeyperm : (store.map Prod.fst).Perm (store'.map Prod.fst) :=
    hperm.map Prod.fst
  have hkeys : List.insertionSort (fun a b : Str => b ≤ a) (store.map Prod.fst) =
      List.insertionSort (fun a b : Str => b ≤ a) (store'.map Prod.fst) :=
    List.eq_of_perm_of_sorted
      ((List.perm_insertionSort _ _).trans
        (hkeyperm.trans (List.perm_insertionSort _ _).symm))
      (List.sorted_insertionSort _ _) (List.sorted_insertionSort _ _)
  have hget : ∀ k, getAssoc store k = getAssoc store' k :=
    getAssoc_perm hnd hperm
  rw [listFiltered_eq, listFiltered_eq, hkeys,
    List.filterMap_congr (fun k _ => hget k)]

theorem leadsList_perm (store store' : List (Str × LeadRecord)) (q : ListQuery)
    (hnd : (store.map Prod.fst).Nodup) (hperm : store.Perm store') :
    leadsList store q = leadsList store' q := by
  unfold leadsList
  rw [listFiltered_perm store store' q hnd hperm]

/-- The spec invariant behind newest-first ordering: a lexically greater
fixed-width timestamp gives a lexically greater key, whatever the two
unique suffixes are. -/
theorem lex_append_of_lt {a b : Str} : ∀ {t1 t2 : Str}, t1.length = t2.length →
    List.Lex (· < ·) t1 t2 → List.Lex (· < ·) (t1 ++ a) (t2 ++ b) := by
  intro t1 t2 hlen h
  induction h with
  | nil => simp at hlen
  | cons hl ih =>
      simp only [List.length_cons, Nat.succ.injEq] at hlen
      exact List.Lex.cons (ih hlen)
  | rel hr => exact List.Lex.rel hr

theorem lex_append_left {x y : Str} (p : Str) (h : List.Lex (· < ·) x y) :
    List.Lex (· < ·) (p ++ x) (p ++ y) := by
  induction p with
  | nil => exact h
  | cons c cs ih => exact List.Lex.cons ih

theorem newLeadKey_lt_of_ts_lt (t1 t2 u1 u2 : Str)
    (hlen : t1.length = t2.length) (hts : t1 < t2) :
    newLeadKey t1 u1 < newLeadKey t2 u2 := by
  unfold newLeadKey
  show List.Lex (· < ·) _ _
  simp only [List.append_assoc]
  have hts' : List.Lex (· < ·) t1 t2 := hts
  exact lex_append_left _ (lex_append_of_lt hlen hts')

/-- Claim C4: with the `archived` parameter omitted, archived records are
excluded from the match set (and hence from the returned page, which is
a sublist of it); with `archived=all` (and no further filters) every
stored record is in the match set; the returned records are in reverse
lexical order of their timestamp-prefixed keys — which is newest-first
chronological order, since a later fixed-width timestamp yields a
lexically greater key whatever the unique suffixes are; and the whole
response is invariant under permuting the stored entries, so the
ordering holds regardless of creation or storage order. -/
theorem leadsList_archived_and_order (store store' : List (Str × LeadRecord))
    (q : ListQuery)
    (hnd : (store.map Prod.fst).Nodup)
    (hid : ∀ p ∈ store, (p.2).id = p.1)
    (hperm : store.Perm store') :
    (q.archived = [] → ∀ r ∈ listFiltered store q, r.archived = false) ∧
    List.Sublist (leadsList store q).leads (listFiltered store q) ∧
    (q.archived = ("all").toList → q.status = [] → q.q = [] →
      ∀ p ∈ store, p.2 ∈ listFiltered store q) ∧
    List.Sorted (fun a b : Str => b ≤ a) ((leadsList store q).leads.map LeadRecord.id) ∧
    leadsList store q = leadsList store' q ∧
    (∀ t1 t2 u1 u2 : Str, t1.length = t2.length → t1 < t2 →
      newLeadKey t1 u1 < newLeadKey t2 u2) :=
  ⟨fun harch => listFiltered_archived_excluded store q harch,
   leads_page_sublist store q,
   fun harch hst hq p hp => mem_listFiltered_all store q hnd harch hst hq p hp,
   (listFiltered_ids_sorted store q hid).sublist
     ((leads_page_sublist store q).map LeadRecord.id),
   leadsList_perm store store' q hnd hperm,
   fun t1 t2 u1 u2 hlen hts => newLeadKey_lt_of_ts_lt t1 t2 u1 u2 hlen hts⟩

/-- An older sample key used by the C4 witness. -/
def wKeyA : Str :=
  ("leads/2024-01-01T00:00:00.000Z_aaaaaaaa-0000-0000-0000-000000000000").toList

/-- A newer sample key used by the C4 witness. -/
def wKeyB : Str :=
  ("leads/2024-01-02T00:00:00.000Z_bbbbbbbb-0000-0000-0000-000000000000").toList

/-- An archived sample record at `wKeyA`. -/
def wRecA : LeadRecord := { wRecord with id := wKeyA, archived := true }

/-- A live sample record at `wKeyB`. -/
def wRecB : LeadRecord := { wRecord with id := wKeyB }

/-- A two-record store used by the C4 witness. -/
def wStore2 : List (Str × LeadRecord) := [(wKeyA, wRecA), (wKeyB, wRecB)]

/-- The same two records stored in the opposite order. -/
def wStore2' : List (Str × LeadRecord) := [(wKeyB, wRecB), (wKeyA, wRecA)]

/-- The default listing query (no parameters supplied). -/
def wQuery : ListQuery := ⟨[], [], [], none, none⟩

/-- Witness for C4 at a concrete two-record store: the default query
excludes the archived record, and the response does not depend on the
storage order. -/
theorem leadsList_archived_and_order_witness :
    (wStore2.map Prod.fst).Nodup ∧ (∀ p ∈ wStore2, (p.2).id = p.1) ∧
    wStore2.Perm wStore2' ∧
    (∀ r ∈ listFiltered wStore2 wQuery, r.archived = false) ∧
    leadsList wStore2 wQuery = leadsList wStore2' wQuery := by
  refine ⟨by decide, by decide, by decide, ?_, ?_⟩
  · exact (leadsList_archived_and_order wStore2 wStore2' wQuery (by decide) (by decide)
      (by decide)).1 rfl
  · exact (leadsList_archived_and_order wStore2 wStore2' wQuery (by decide) (by decide)
      (by decide)).2.2.2.2.1

end AshleeLeads
